import Mathlib

/-!
Verification of the securefiles upload/download authorization and
artifact-lifecycle flow.

The development is a shallow embedding of the relevant JavaScript source:

* `src/services/captchaService.js` — captcha answer verification and expiry;
* `src/models/captchaModel.js` — captcha rows and the periodic sweep predicate;
* `src/services/captchaCleanupService.js` — sweep configuration;
* `src/controllers/fileController.js` — the upload and download pipelines;
* `src/services/fileStorageService.js` — blob storage addressing (basename
  normalization plus join with the uploads directory);
* `src/index.js` — encryption key startup resolution and the AES-256-CBC
  `encryptFile` / `decryptFile` helpers.

External collaborators (the AES block permutation, the TOTP verifier, the
random sources, the SQLite engine) are modelled abstractly, exactly at the
contract boundary the code uses: the block cipher is an arbitrary pair of
functions on 16-byte blocks, random values (nonce, uuid bytes, captcha keys)
are explicit parameters, the database tables are association lists, and the
current time is an explicit integer argument (`Date.now()` milliseconds).
-/

namespace SecureFiles

/-! ### Captcha expiry and the cleanup sweep -/

/-- Model of `captchaService.isExpired(createdAt, expiryMs)` from
src/services/captchaService.js: `Date.now() > (createdAt + expiryMs)`,
with the current time an explicit argument. -/
def isExpired (now createdAt expiryMs : Int) : Bool :=
  now > createdAt + expiryMs

/-- Row-deletion predicate of `captchaModel.cleanExpired(expiryMs)` from
src/models/captchaModel.js: the sweep deletes rows with
`created_at < Date.now() - expiryMs`. -/
def sweepDeletes (now expiryMs createdAt : Int) : Bool :=
  createdAt < now - expiryMs

/-- Expiry duration as read by `setupFileController` in
src/controllers/fileController.js: `config.captcha?.expiryMs || 300000`.
JavaScript `||` also replaces a configured `0` by the default. -/
def controllerExpiryMs (cfg : Option Int) : Int :=
  match cfg with
  | some v => if v = 0 then 300000 else v
  | none => 300000

/-- Expiry duration as read by `startCaptchaCleanup` in
src/services/captchaCleanupService.js: `config.captcha?.expiryMs || 300000`. -/
def cleanupExpiryMs (cfg : Option Int) : Int :=
  match cfg with
  | some v => if v = 0 then 300000 else v
  | none => 300000

/-- ASCII lower-casing of one character, as `String.prototype.toLowerCase`
acts on the alphanumeric captcha alphabet. -/
def lowerChar (c : Char) : Char :=
  if 'A' ≤ c && c ≤ 'Z' then Char.ofNat (c.toNat + 32) else c

/-- Whitespace as `String.prototype.trim` strips it (ASCII part). -/
def isSpaceChar (c : Char) : Bool :=
  c == ' ' || c == '\t' || c == '\n' || c == '\r'

/-- Leading and trailing whitespace removed. -/
def trimChars (cs : List Char) : List Char :=
  ((cs.dropWhile isSpaceChar).reverse.dropWhile isSpaceChar).reverse

/-- JavaScript `s.toLowerCase().trim()`. -/
def normalizeAnswer (s : String) : String :=
  String.mk (trimChars (s.toList.map lowerChar))

/-- Model of `captchaService.verify(userAnswer, storedAnswer)` from
src/services/captchaService.js: false on missing/empty input, otherwise a
case-insensitive, whitespace-trimmed comparison.  An absent value and the
empty string are both falsy in the source, so both are modelled by `""`. -/
def captchaVerify (userAnswer storedAnswer : String) : Bool :=
  if userAnswer = "" || storedAnswer = "" then false
  else normalizeAnswer userAnswer == normalizeAnswer storedAnswer

/-! ### Storage addressing (src/services/fileStorageService.js) -/

/-- Trailing separators removed, as Node `path.basename` ignores them. -/
def dropTrailingSlashes (cs : List Char) : List Char :=
  ((cs.reverse).dropWhile (fun c => c == '/')).reverse

/-- Characters after the last separator. -/
def lastComponentChars (cs : List Char) : List Char :=
  ((cs.reverse).takeWhile (fun c => c != '/')).reverse

/-- Model of Node `path.basename` (POSIX) as called by every function of
src/services/fileStorageService.js: ignore trailing `/` separators, then keep
the part after the last remaining `/`. -/
def basenameStr (s : String) : String :=
  String.mk (lastComponentChars (dropTrailingSlashes s.toList))

/-- Model of Node `path.join(uploadsDir, c)` for a single component `c`
containing no separator, which is what the storage service passes (the output
of `basenameStr`).  `join` normalizes the result: an empty or `"."` component
leaves the directory unchanged and `".."` pops one directory.  Directories are
lists of path components. -/
def joinNormalize (root : List String) (c : String) : List String :=
  if c = "" || c = "." then root
  else if c = ".." then root.dropLast
  else root ++ [c]

/-- The filesystem path touched by `saveFile` / `readFile` / `deleteFile` /
`fileExists` in src/services/fileStorageService.js for an identifier `uuid`:
`join(uploadsDir, basename(uuid))`. -/
def resolvedStoragePath (uploadsDir : List String) (uuid : String) : List String :=
  joinNormalize uploadsDir (basenameStr uuid)

/-! ### Encryption key startup resolution (src/index.js) -/

/-- Model of src/index.js lines 31-37: if the config file has no truthy
`security.encryptionKey`, a freshly generated random key is stored into it. -/
def ensureConfigKey (cfgKey generated : String) : String :=
  if cfgKey = "" then generated else cfgKey

/-- Model of the `ENCRYPTION_KEY` initializer, src/index.js lines 143-146:
the `ENCRYPTION_KEY` environment variable takes precedence over the config
value when truthy. -/
def encryptionKeyOf (envKey cfgKeyEnsured : String) : String :=
  if envKey = "" then cfgKeyEnsured else envKey

/-- Whole startup key resolution of src/index.js: the config key is ensured
(generated when missing) before the `ENCRYPTION_KEY` constant is computed.
The result is the key material used for the whole process lifetime. -/
def resolveKey (envKey cfgKey generated : String) : String :=
  encryptionKeyOf envKey (ensureConfigKey cfgKey generated)

/-- Modelled from the spec: section 4.1 and section 7 say the codec fails with
`ConfigurationError` when neither the environment override nor the
configuration value provides key material; `none` stands for that error. -/
def specResolveKey (envKey cfgKey : String) : Option String :=
  if envKey ≠ "" then some envKey
  else if cfgKey ≠ "" then some cfgKey
  else none

/-! ### Database rows and system state -/

/-- Row of the `captchas` table (src/services/databaseService.js):
`(key TEXT PRIMARY KEY, text TEXT NOT NULL, created_at INTEGER NOT NULL)`. -/
structure CaptchaRow where
  key : String
  text : String
  created_at : Int
deriving DecidableEq, Repr

/-- Row of the `files` table (src/services/databaseService.js):
`(uuid TEXT PRIMARY KEY, filename TEXT NOT NULL, totp_secret TEXT NOT NULL)`.
The `created_at` default column plays no role in the verified flow. -/
structure FileRow where
  uuid : String
  filename : String
  totp_secret : String
deriving DecidableEq, Repr

/-- Persistent state touched by the pipelines: the two SQLite tables and the
uploads directory (blob storage), keyed by the stored file name. -/
structure SysState where
  captchas : List CaptchaRow
  files : List FileRow
  blobs : List (String × List Nat)
deriving DecidableEq, Repr

/-- Model of `captchaModel.findByKey` (SELECT * FROM captchas WHERE key = ?). -/
def findByKey (rows : List CaptchaRow) (k : String) : Option CaptchaRow :=
  rows.find? (fun r => r.key == k)

/-- Model of `captchaModel.delete` (DELETE FROM captchas WHERE key = ?). -/
def deleteCaptchaRows (rows : List CaptchaRow) (k : String) : List CaptchaRow :=
  rows.filter (fun r => r.key != k)

/-- Model of `fileModel.findByUuid` (SELECT * FROM files WHERE uuid = ?). -/
def findByUuid (rows : List FileRow) (u : String) : Option FileRow :=
  rows.find? (fun r => r.uuid == u)

/-- Blob stored in the uploads directory under a given name, if any. -/
def lookupBlob (blobs : List (String × List Nat)) (name : String) : Option (List Nat) :=
  (blobs.find? (fun p => p.1 == name)).map (fun p => p.2)

/-- Model of `captchaModel.cleanExpired(expiryMs)`: rows satisfying the sweep
predicate are removed, the rest are kept. -/
def cleanExpired (rows : List CaptchaRow) (now expiryMs : Int) : List CaptchaRow :=
  rows.filter (fun r => !(sweepDeletes now expiryMs r.created_at))

/-! ### The upload pipeline (fileController.uploadFile) -/

/-- Uploaded file as multer delivers it to the controller. -/
structure UploadedFile where
  buffer : List Nat
  mimetype : String
  originalname : String
deriving DecidableEq, Repr

/-- Request body fields read by `uploadFile`.  A missing field and the empty
string are both falsy in the source; both are modelled by `""`. -/
structure UploadReq where
  captchaKey : String
  captchaAnswer : String
  filename : String
  file : Option UploadedFile
deriving DecidableEq, Repr

/-- Response of the upload pipeline: either the index page rendered again with
an error message and a freshly generated captcha key, or the success page with
the identifier and the TOTP secret. -/
inductive UploadOutcome where
  | errorRender (msg : String) (newCaptchaKey : String)
  | success (uuid : String) (totpSecret : String) (filename : String)
deriving DecidableEq, Repr

/-- The content-type allowlist switch of fileController.js lines 137-145. -/
def allowedMime (t : String) : Bool :=
  t == "application/zip" || t == "application/x-7z-compressed" ||
  t == "application/x-rar-compressed" || t == "application/gzip" ||
  t == "application/x-tar" || t == "application/x-xz" || t == "application/x-bzip2"

/-- Insert a freshly generated captcha row (`captchaService.generate` followed
by `captchaModel.create`), as every error branch of the controller does. -/
def addCaptcha (st : SysState) (c : CaptchaRow) : SysState :=
  { st with captchas := st.captchas ++ [c] }

/-- Model of `fileController.uploadFile` (src/controllers/fileController.js
lines 35-197).  External effects are explicit parameters: `now` is
`Date.now()`, `fresh` is the captcha row that `captchaService.generate` would
produce if an error branch fires, `uuid` and `totpSecret` are the freshly
generated identifier and secret, `encF` is `encryptionService.encryptFile`,
and `insertFails` injects a thrown error (with message `insertErrMsg`) from
the `fileModel.create` INSERT, which the trailing catch block handles. -/
def uploadFile (st : SysState) (req : UploadReq) (now expiryMs : Int)
    (fresh : CaptchaRow) (uuid totpSecret : String)
    (encF : List Nat → List Nat) (insertFails : Bool) (insertErrMsg : String) :
    SysState × UploadOutcome :=
  if req.captchaKey = "" || req.captchaAnswer = "" then
    (addCaptcha st fresh, .errorRender "Captcha verification required" fresh.key)
  else
    match findByKey st.captchas req.captchaKey with
    | none =>
      (addCaptcha st fresh, .errorRender "Captcha not found or already used" fresh.key)
    | some stored =>
      if isExpired now stored.created_at expiryMs then
        (addCaptcha { st with captchas := deleteCaptchaRows st.captchas req.captchaKey } fresh,
         .errorRender "Captcha expired. Please try again." fresh.key)
      else if !(captchaVerify req.captchaAnswer stored.text) then
        (addCaptcha { st with captchas := deleteCaptchaRows st.captchas req.captchaKey } fresh,
         .errorRender "Incorrect captcha answer. Please try again." fresh.key)
      else
        let st1 : SysState := { st with captchas := deleteCaptchaRows st.captchas req.captchaKey }
        match req.file with
        | none => (addCaptcha st1 fresh, .errorRender "No file uploaded" fresh.key)
        | some f =>
          if allowedMime f.mimetype then
            let fileName := if req.filename = "" then f.originalname else req.filename
            let enc := encF f.buffer
            let st2 : SysState := { st1 with blobs := st1.blobs ++ [(basenameStr uuid, enc)] }
            if insertFails then
              (addCaptcha st2 fresh,
               .errorRender ("Error processing file upload: " ++ insertErrMsg) fresh.key)
            else
              ({ st2 with files := st2.files ++ [⟨uuid, fileName, totpSecret⟩] },
               .success uuid totpSecret fileName)
          else
            (addCaptcha st1 fresh,
             .errorRender "Only archive files (ZIP, 7Z, RAR, GZIP, TAR) are accepted" fresh.key)

/-! ### The download pipeline (fileController.downloadFile) -/

/-- Response of the download pipeline: the download page rendered with an
error message, or the decrypted bytes streamed with the display name. -/
inductive DownloadOutcome where
  | render (msg : String)
  | sendFile (filename : String) (bytes : List Nat)
deriving DecidableEq, Repr

/-- Hex-digit check of the case-insensitive character class `[0-9a-f]` under
the `/i` flag. -/
def isHexDigitI (c : Char) : Bool :=
  ('0' ≤ c && c ≤ '9') || ('a' ≤ c && c ≤ 'f') || ('A' ≤ c && c ≤ 'F')

/-- Groups of a string between `-` separators. -/
def splitDash : List Char → List (List Char)
  | [] => [[]]
  | c :: cs =>
    if c = '-' then [] :: splitDash cs
    else
      match splitDash cs with
      | [] => [[c]]
      | g :: gs => (c :: g) :: gs

/-- One hyphen-separated group of the UUID pattern: exact length, hex only. -/
def groupOk (g : List Char) (n : Nat) : Bool :=
  g.length == n && g.all isHexDigitI

/-- Model of the anchored regex of fileController.js line 230,
8-4-4-4-12 case-insensitive hex groups separated by hyphens. -/
def matchesUuidRegex (s : String) : Bool :=
  match splitDash s.toList with
  | [a, b, c, d, e] =>
    groupOk a 8 && groupOk b 4 && groupOk c 4 && groupOk d 4 && groupOk e 12
  | _ => false

/-- Model of `fileController.downloadFile` (src/controllers/fileController.js
lines 224-279).  `vf` is `totpService.verifyToken` applied at the request's
time with window 2, and `decF` is `encryptionService.decryptFile` returning
`none` when decryption throws.  The state is threaded through explicitly so
that the frame property is a statement, not a typing accident: every branch
returns the state it received, because the source performs only reads. -/
def downloadFile (st : SysState) (uuid totp : String)
    (vf : String → String → Bool) (decF : List Nat → Option (List Nat)) :
    SysState × DownloadOutcome :=
  if !(matchesUuidRegex uuid) then (st, .render "Invalid UUID format")
  else if totp = "" then (st, .render "TOTP code is required")
  else
    match findByUuid st.files uuid with
    | none => (st, .render "File not found")
    | some row =>
      if !(vf row.totp_secret totp) then (st, .render "Invalid TOTP code")
      else
        match lookupBlob st.blobs (basenameStr uuid) with
        | none => (st, .render "Error processing download request")
        | some encB =>
          match decF encB with
          | none => (st, .render "Error decrypting file.")
          | some dec => (st, .sendFile row.filename dec)

/-! ### The identifier generator (crypto.randomUUID, RFC 9562 version 4)

Model of the external contract `randomUUID` relies on, called at
src/controllers/fileController.js line 166: sixteen random bytes, the version
nibble of byte 6 forced to `4` and the two top bits of byte 8 forced to the
`10` variant, printed as lowercase hex in the 8-4-4-4-12 layout. -/

/-- Lowercase hex digit of a nibble. -/
def nibbleToHexChar (n : Nat) : Char :=
  if n < 10 then Char.ofNat (48 + n) else Char.ofNat (87 + n)

/-- Two lowercase hex digits of one byte. -/
def byteToHex (b : Nat) : List Char :=
  [nibbleToHexChar (b / 16 % 16), nibbleToHexChar (b % 16)]

/-- Lowercase hex encoding of a byte list. -/
def hexBytes (bs : List Nat) : List Char :=
  (bs.map byteToHex).flatten

/-- Force the version-4 nibble (byte 6) and the variant bits (byte 8). -/
def setVersionVariant (bs : List Nat) : List Nat :=
  bs.mapIdx (fun i b => if i = 6 then 64 + b % 16 else if i = 8 then 128 + b % 64 else b)

/-- Characters of the generated identifier: hex groups of 4, 2, 2, 2 and
6 bytes separated by hyphens. -/
def uuidChars (bs : List Nat) : List Char :=
  hexBytes ((setVersionVariant bs).take 4) ++
    '-' :: (hexBytes (((setVersionVariant bs).drop 4).take 2) ++
      '-' :: (hexBytes (((setVersionVariant bs).drop 6).take 2) ++
        '-' :: (hexBytes (((setVersionVariant bs).drop 8).take 2) ++
          '-' :: hexBytes ((setVersionVariant bs).drop 10))))

/-- The identifier issued at upload time, as a function of the sixteen random
bytes that `crypto.randomUUID` draws. -/
def randomUUIDOf (bs : List Nat) : String :=
  String.mk (uuidChars bs)

/-! ### The secret codec (src/index.js lines 140-163)

The source runs `aes-256-cbc` (the configured default) through Node's
`createCipheriv` / `createDecipheriv` with an auto-padded block size of 16
bytes, which is PKCS#7, and an IV of `IV_LENGTH` = 16 bytes (the configured
default, and the only length the algorithm accepts).  The AES key schedule is
an external collaborator: it is modelled as an arbitrary pair `E`, `D` of
functions on 16-byte blocks, where `E` is the keyed block encryption and `D`
its inverse.  Bytes are naturals below 256; XOR never leaves that range. -/

/-- AES block size and default configured IV length (`config.security?.ivLength || 16`). -/
def BLOCK : Nat := 16

/-- Pointwise XOR of two byte lists. -/
def xorBytes (a b : List Nat) : List Nat :=
  List.zipWith (fun x y => x ^^^ y) a b

/-- PKCS#7 padding to a multiple of the block size, as `cipher.update` plus
`cipher.final` perform with default auto padding. -/
def pkcs7pad (bs : List Nat) : List Nat :=
  let k := BLOCK - bs.length % BLOCK
  bs ++ List.replicate k k

/-- PKCS#7 unpadding, as `decipher.final` performs: the last byte names the
padding length, which must be between 1 and the block size and actually
present; otherwise decryption throws (`none`). -/
def pkcs7unpad (bs : List Nat) : Option (List Nat) :=
  match bs.getLast? with
  | none => none
  | some k =>
    if (decide (1 ≤ k) && decide (k ≤ BLOCK) && decide (k ≤ bs.length)
        && (bs.drop (bs.length - k)).all (fun x => x == k)) then
      some (bs.take (bs.length - k))
    else none

/-- Split into blocks of `BLOCK` bytes, with explicit fuel so that the
function is structural and computable by the kernel. -/
def chunksAux : Nat → List Nat → List (List Nat)
  | 0, _ => []
  | _ + 1, [] => []
  | f + 1, c :: cs => (c :: cs).take BLOCK :: chunksAux f ((c :: cs).drop BLOCK)

/-- Split a byte list into blocks of `BLOCK` bytes. -/
def chunks (l : List Nat) : List (List Nat) :=
  chunksAux l.length l

/-- CBC encryption over block lists: each plaintext block is XORed with the
previous ciphertext block (the IV for the first) before block encryption. -/
def cbcEnc (E : List Nat → List Nat) : List Nat → List (List Nat) → List (List Nat)
  | _, [] => []
  | prev, p :: ps =>
    let c := E (xorBytes p prev)
    c :: cbcEnc E c ps

/-- CBC decryption over block lists. -/
def cbcDec (D : List Nat → List Nat) : List Nat → List (List Nat) → List (List Nat)
  | _, [] => []
  | prev, c :: cs => xorBytes (D c) prev :: cbcDec D c cs

/-- Model of `encryptFile` (src/index.js lines 149-154): a fresh random
`iv` of `IV_LENGTH` bytes (here an explicit argument), CBC encryption of the
padded buffer under the process key (inside `E`), and the concatenation
`iv ++ ciphertext` as the stored bytes. -/
def encryptFile (E : List Nat → List Nat) (iv buffer : List Nat) : List Nat :=
  iv ++ (cbcEnc E iv (chunks (pkcs7pad buffer))).flatten

/-- Model of `decryptFile` (src/index.js lines 157-163): the first
`IV_LENGTH` bytes are the IV, the remainder is CBC-decrypted and unpadded;
`none` models the decryption error the source throws. -/
def decryptFile (D : List Nat → List Nat) (buffer : List Nat) : Option (List Nat) :=
  pkcs7unpad (cbcDec D (buffer.take BLOCK) (chunks (buffer.drop BLOCK))).flatten

/-! ### Concrete fixtures used by counterexamples and witnesses -/

/-- A stored captcha row used by concrete runs of the pipelines. -/
def cexStored : CaptchaRow := ⟨"k1", "abc", 0⟩

/-- A system state holding exactly that captcha. -/
def cexState : SysState := ⟨[cexStored], [], []⟩

/-- A well-formed archive upload. -/
def cexFile : UploadedFile := ⟨[1, 2, 3], "application/zip", "report.zip"⟩

/-- A request answering the stored captcha correctly. -/
def cexReq : UploadReq := ⟨"k1", "abc", "", some cexFile⟩

/-- The captcha a first error branch would regenerate. -/
def cexFresh : CaptchaRow := ⟨"k2", "xyz", 0⟩

/-- The captcha a second error branch would regenerate. -/
def cexFresh2 : CaptchaRow := ⟨"k3", "qwe", 0⟩

end SecureFiles

namespace SecureFiles

/-! ### Helper lemmas -/

theorem findByKey_deleteCaptchaRows (rows : List CaptchaRow) (k : String) :
    findByKey (deleteCaptchaRows rows k) k = none := by
  unfold findByKey deleteCaptchaRows
  rw [List.find?_eq_none]
  intro r hr
  rw [List.mem_filter] at hr
  simpa using hr.2

theorem findByKey_append_single (rows : List CaptchaRow) (c : CaptchaRow) (k : String)
    (h : findByKey rows k = none) (hc : c.key ≠ k) :
    findByKey (rows ++ [c]) k = none := by
  unfold findByKey at h ⊢
  rw [List.find?_append, h]
  have hck : (c.key == k) = false := by simp [hc]
  simp [List.find?, hck]

theorem lookupBlob_append_self (blobs : List (String × List Nat)) (k : String) (v : List Nat)
    (h : lookupBlob blobs k = none) :
    lookupBlob (blobs ++ [(k, v)]) k = some v := by
  unfold lookupBlob at h ⊢
  rw [Option.map_eq_none'] at h
  rw [List.find?_append, h]
  simp [List.find?]

/-! ### C7 — sweep and per-request expiry never disagree -/

/-- C7: the periodic sweep and the per-request expiry check agree: both read
the same `config.captcha?.expiryMs || 300000` duration, and for that shared
duration the sweep's deletion predicate `created_at < now - expiryMs` holds
exactly when `isExpired(created_at, expiryMs)` holds; consequently
`cleanExpired` keeps a row exactly when the per-request check does not
classify it as expired. -/
theorem sweep_agrees_with_request_check (cfg : Option Int) (now createdAt : Int)
    (rows : List CaptchaRow) (row : CaptchaRow) :
    cleanupExpiryMs cfg = controllerExpiryMs cfg ∧
    sweepDeletes now (cleanupExpiryMs cfg) createdAt
      = isExpired now createdAt (controllerExpiryMs cfg) ∧
    (row ∈ cleanExpired rows now (cleanupExpiryMs cfg) ↔
      row ∈ rows ∧ isExpired now row.created_at (controllerExpiryMs cfg) = false) := by
  have hsame : cleanupExpiryMs cfg = controllerExpiryMs cfg := rfl
  have hpred : ∀ c : Int, sweepDeletes now (cleanupExpiryMs cfg) c
      = isExpired now c (controllerExpiryMs cfg) := by
    intro c
    simp only [sweepDeletes, isExpired, decide_eq_decide]
    omega
  refine ⟨hsame, hpred createdAt, ?_⟩
  simp [cleanExpired, List.mem_filter, hpred]

/-! ### C5 — encryption key startup resolution -/

/-- C5 counterexample: with no environment key and no config key the spec
demands a `ConfigurationError`, but the startup code of src/index.js never
fails: it generates a fresh key, persists it, and uses it, so key resolution
yields the generated key where the spec-modelled resolution yields the error
value `none`. -/
theorem missing_key_generates_cex :
    resolveKey "" "" "GENKEY" = "GENKEY" ∧ specResolveKey "" "" = none := by
  exact ⟨rfl, rfl⟩

/-- C5 amended: key material is resolved once at startup from the environment
override, else the config value, and when neither is present a freshly
generated key is used instead of failing; the resolved value is a pure
function of the startup inputs (and hence fixed for the process lifetime). -/
theorem key_resolution_precedence (envKey cfgKey generated : String) :
    resolveKey envKey cfgKey generated =
      if envKey ≠ "" then envKey else if cfgKey ≠ "" then cfgKey else generated := by
  unfold resolveKey encryptionKeyOf ensureConfigKey
  by_cases he : envKey = "" <;> by_cases hc : cfgKey = "" <;> simp [he, hc]

/-! ### C9 — a download mutates no persistent state -/

/-- C9: `downloadFile` performs no write to the files table, the captcha
table, or blob storage: the state it returns is the state it received, and
therefore resubmitting the same identifier and code (while the TOTP verifier
still accepts the code, i.e. within the tolerance window of the same fixed
verifier function) yields the identical outcome, including the same decrypted
bytes on success. -/
theorem download_mutates_nothing (st : SysState) (uuid totp : String)
    (vf : String → String → Bool) (decF : List Nat → Option (List Nat)) :
    (downloadFile st uuid totp vf decF).1 = st ∧
    downloadFile (downloadFile st uuid totp vf decF).1 uuid totp vf decF
      = downloadFile st uuid totp vf decF := by
  have h : (downloadFile st uuid totp vf decF).1 = st := by
    unfold downloadFile
    repeat' split
    all_goals rfl
  exact ⟨h, by rw [h]⟩

/-! ### C4 — path safety of storage addressing -/

/-- C4 counterexample: the externally supplied identifier `"../"` (which
contains `../`) is normalized by `basename` to `".."`, and `path.join` then
resolves the accessed path to the parent of the uploads directory: the
resulting path `["app"]` is outside the storage root `["app", "uploads"]`, so
the claim that such payloads never cause file access outside the storage root
is false. -/
theorem storage_path_escape_cex :
    resolvedStoragePath ["app", "uploads"] "../" = ["app"] ∧
    List.isPrefixOf ["app", "uploads"] (resolvedStoragePath ["app", "uploads"] "../") = false := by
  exact ⟨rfl, rfl⟩

/-- C4 amended: every externally supplied identifier is normalized to its
base name before file access, and whenever that base name is not a dot
segment (`""`, `"."`, `".."`) the accessed path is directly inside the
uploads directory: it is the uploads directory extended by the single
separator-free component `basename(uuid)`.  (A bare dot-segment identifier
such as `".."` still resolves to the root's parent; the deployed call sites
only pass identifiers that are generated UUIDs or have passed the UUID format
check, which excludes dot segments.) -/
theorem storage_path_inside_root (uploadsDir : List String) (uuid : String)
    (h1 : basenameStr uuid ≠ "") (h2 : basenameStr uuid ≠ ".") (h3 : basenameStr uuid ≠ "..") :
    resolvedStoragePath uploadsDir uuid = uploadsDir ++ [basenameStr uuid] ∧
    '/' ∉ (basenameStr uuid).toList := by
  constructor
  · unfold resolvedStoragePath joinNormalize
    simp [h1, h2, h3]
  · intro hmem
    have heq : (basenameStr uuid).toList = lastComponentChars (dropTrailingSlashes uuid.toList) := rfl
    rw [heq] at hmem
    unfold lastComponentChars at hmem
    rw [List.mem_reverse] at hmem
    have := List.mem_takeWhile_imp hmem
    simp at this

/-! ### Pipeline lemmas shared by the upload-path claims -/

theorem uploadFile_captchas_cases (st : SysState) (req : UploadReq) (now expiryMs : Int)
    (fresh : CaptchaRow) (uuid totpSecret : String) (encF : List Nat → List Nat)
    (insertFails : Bool) (insertErrMsg : String) (stored : CaptchaRow)
    (hkey : req.captchaKey ≠ "") (hans : req.captchaAnswer ≠ "")
    (hstored : findByKey st.captchas req.captchaKey = some stored) :
    (uploadFile st req now expiryMs fresh uuid totpSecret encF insertFails insertErrMsg).1.captchas
        = deleteCaptchaRows st.captchas req.captchaKey ++ [fresh] ∨
    (uploadFile st req now expiryMs fresh uuid totpSecret encF insertFails insertErrMsg).1.captchas
        = deleteCaptchaRows st.captchas req.captchaKey := by
  unfold uploadFile
  rw [if_neg (by simp [hkey, hans])]
  simp only [hstored]
  repeat' split
  all_goals simp [addCaptcha]

/-- After a found captcha is processed, its key is gone from the table. -/
theorem uploadFile_consumes (st : SysState) (req : UploadReq) (now expiryMs : Int)
    (fresh : CaptchaRow) (uuid totpSecret : String) (encF : List Nat → List Nat)
    (insertFails : Bool) (insertErrMsg : String) (stored : CaptchaRow)
    (hkey : req.captchaKey ≠ "") (hans : req.captchaAnswer ≠ "")
    (hstored : findByKey st.captchas req.captchaKey = some stored)
    (hfresh : fresh.key ≠ req.captchaKey) :
    findByKey
      (uploadFile st req now expiryMs fresh uuid totpSecret encF insertFails insertErrMsg).1.captchas
      req.captchaKey = none := by
  have hdel := findByKey_deleteCaptchaRows st.captchas req.captchaKey
  rcases uploadFile_captchas_cases st req now expiryMs fresh uuid totpSecret encF insertFails
      insertErrMsg stored hkey hans hstored with h | h
  · rw [h]
    exact findByKey_append_single _ _ _ hdel hfresh
  · rw [h]
    exact hdel

/-! ### C3 — challenges are strictly single-use -/

/-- C3: after one verification attempt against a stored challenge token
(whether the attempt finds it expired, answers wrongly, or answers
correctly), the row is deleted before the response is returned, so a second
upload attempt with the same token takes the not-found branch and renders
the not-found message (with the second attempt's regenerated challenge key).
The regenerated keys are fresh random values, modelled by the hypothesis
that they differ from the consumed token. -/
theorem captcha_single_use
    (st : SysState) (req req2 : UploadReq) (now now2 expiryMs expiryMs2 : Int)
    (fresh fresh2 : CaptchaRow) (uuid uuid2 totp totp2 : String)
    (encF encF2 : List Nat → List Nat) (ins ins2 : Bool) (msg msg2 : String)
    (stored : CaptchaRow)
    (hkey : req.captchaKey ≠ "") (hans : req.captchaAnswer ≠ "")
    (hstored : findByKey st.captchas req.captchaKey = some stored)
    (hfresh : fresh.key ≠ req.captchaKey)
    (hkey2 : req2.captchaKey = req.captchaKey) (hans2 : req2.captchaAnswer ≠ "") :
    (uploadFile (uploadFile st req now expiryMs fresh uuid totp encF ins msg).1
        req2 now2 expiryMs2 fresh2 uuid2 totp2 encF2 ins2 msg2).2 =
      UploadOutcome.errorRender "Captcha not found or already used" fresh2.key := by
  have hnone : findByKey
      (uploadFile st req now expiryMs fresh uuid totp encF ins msg).1.captchas
      req2.captchaKey = none := by
    rw [hkey2]
    exact uploadFile_consumes st req now expiryMs fresh uuid totp encF ins msg stored
      hkey hans hstored hfresh
  conv_lhs => rw [uploadFile]
  rw [if_neg (by simp [hkey2, hkey, hans2])]
  rw [hnone]

/-- C3 witness: a concrete correct-answer attempt consumes the token and a
second attempt with the same token is rejected as not found. -/
theorem captcha_single_use_witness :
    (cexReq.captchaKey ≠ "" ∧ cexReq.captchaAnswer ≠ "" ∧
      findByKey cexState.captchas cexReq.captchaKey = some cexStored ∧
      cexFresh.key ≠ cexReq.captchaKey ∧
      cexReq.captchaKey = cexReq.captchaKey ∧ cexReq.captchaAnswer ≠ "") ∧
    (uploadFile (uploadFile cexState cexReq 0 300000 cexFresh "u1" "S"
          (fun b => b) false "").1
        cexReq 0 300000 cexFresh2 "u2" "T" (fun b => b) false "").2 =
      UploadOutcome.errorRender "Captcha not found or already used" cexFresh2.key := by
  exact ⟨⟨by decide, by decide, by decide, by decide, rfl, by decide⟩,
    captcha_single_use cexState cexReq cexReq 0 0 300000 300000 cexFresh cexFresh2
      "u1" "u2" "S" "T" (fun b => b) (fun b => b) false false "" "" cexStored
      (by decide) (by decide) (by decide) (by decide) rfl (by decide)⟩

/-! ### C6 — expiry is the strict boundary now > createdAt + expiryMs -/

/-- C6: expiry is the strict predicate `now > createdAt + expiryDuration`: a
challenge created at `t` whose answer is correct still verifies (the upload
proceeds to success) when the attempt arrives at `t + d - 1` milliseconds,
and is rejected as expired at `t + d + 1` milliseconds. -/
theorem expiry_boundary
    (st : SysState) (req : UploadReq) (t d : Int) (stored fresh : CaptchaRow)
    (uuid totp : String) (encF : List Nat → List Nat) (msg : String) (f : UploadedFile)
    (hkey : req.captchaKey ≠ "") (hans : req.captchaAnswer ≠ "")
    (hstored : findByKey st.captchas req.captchaKey = some stored)
    (hcreated : stored.created_at = t)
    (hverify : captchaVerify req.captchaAnswer stored.text = true)
    (hfile : req.file = some f) (hmime : allowedMime f.mimetype = true) :
    isExpired (t + d - 1) t d = false ∧
    isExpired (t + d + 1) t d = true ∧
    (uploadFile st req (t + d - 1) d fresh uuid totp encF false msg).2 =
      UploadOutcome.success uuid totp
        (if req.filename = "" then f.originalname else req.filename) ∧
    (uploadFile st req (t + d + 1) d fresh uuid totp encF false msg).2 =
      UploadOutcome.errorRender "Captcha expired. Please try again." fresh.key := by
  have h1 : isExpired (t + d - 1) t d = false := by
    simp only [isExpired, decide_eq_false_iff_not]
    omega
  have h2 : isExpired (t + d + 1) t d = true := by
    simp only [isExpired, decide_eq_true_eq]
    omega
  refine ⟨h1, h2, ?_, ?_⟩
  · unfold uploadFile
    rw [if_neg (by simp [hkey, hans])]
    simp only [hstored, hcreated, h1, hverify, hfile, hmime, Bool.not_true, Bool.false_eq_true,
      if_false, if_true, Bool.true_eq_false]
  · unfold uploadFile
    rw [if_neg (by simp [hkey, hans])]
    simp only [hstored, hcreated, h2, if_true]

/-- C6 witness: the boundary behaviour at a concrete challenge created at
time 0 with a five-minute expiry. -/
theorem expiry_boundary_witness :
    (cexReq.captchaKey ≠ "" ∧ cexReq.captchaAnswer ≠ "" ∧
      findByKey cexState.captchas cexReq.captchaKey = some cexStored ∧
      cexStored.created_at = 0 ∧
      captchaVerify cexReq.captchaAnswer cexStored.text = true ∧
      cexReq.file = some cexFile ∧ allowedMime cexFile.mimetype = true) ∧
    (isExpired (0 + 300000 - 1) 0 300000 = false ∧
      isExpired (0 + 300000 + 1) 0 300000 = true ∧
      (uploadFile cexState cexReq (0 + 300000 - 1) 300000 cexFresh "u1" "S"
          (fun b => b) false "").2 =
        UploadOutcome.success "u1" "S"
          (if cexReq.filename = "" then cexFile.originalname else cexReq.filename) ∧
      (uploadFile cexState cexReq (0 + 300000 + 1) 300000 cexFresh "u1" "S"
          (fun b => b) false "").2 =
        UploadOutcome.errorRender "Captcha expired. Please try again." cexFresh.key) := by
  exact ⟨⟨by decide, by decide, by decide, by decide, by decide, by decide, by decide⟩,
    expiry_boundary cexState cexReq 0 300000 cexStored cexFresh "u1" "S" (fun b => b) ""
      cexFile (by decide) (by decide) (by decide) (by decide) (by decide) (by decide) (by decide)⟩

/-! ### C2 — blob write and record insert on the upload path -/

/-- C2 counterexample: in a run where the blob write succeeds and the record
insert then fails, the orchestrator does render an error (no success
reported), but the partially written blob is NOT cleaned up: it is still
present in storage under the new identifier after the response, contradicting
the claim that it is deleted. -/
theorem upload_blob_not_cleaned_cex :
    (uploadFile cexState cexReq 0 300000 cexFresh "u1" "S" (fun b => b) true "db failure").2 =
      UploadOutcome.errorRender "Error processing file upload: db failure" "k2" ∧
    lookupBlob
      (uploadFile cexState cexReq 0 300000 cexFresh "u1" "S" (fun b => b) true "db failure").1.blobs
      "u1" = some [1, 2, 3] := by
  exact ⟨by decide, by decide⟩

/-- C2 amended: when the blob write succeeds and the record insert fails, the
orchestrator does not report success to the client (the catch block renders
an error page instead), but the partially written blob is not cleaned up: it
remains in storage under the generated identifier. -/
theorem upload_insert_failure_keeps_blob
    (st : SysState) (req : UploadReq) (now expiryMs : Int) (stored fresh : CaptchaRow)
    (uuid totp : String) (encF : List Nat → List Nat) (msg : String) (f : UploadedFile)
    (hkey : req.captchaKey ≠ "") (hans : req.captchaAnswer ≠ "")
    (hstored : findByKey st.captchas req.captchaKey = some stored)
    (hnotexp : isExpired now stored.created_at expiryMs = false)
    (hverify : captchaVerify req.captchaAnswer stored.text = true)
    (hfile : req.file = some f) (hmime : allowedMime f.mimetype = true)
    (hnoblob : lookupBlob st.blobs (basenameStr uuid) = none) :
    (∀ u s fn, (uploadFile st req now expiryMs fresh uuid totp encF true msg).2 ≠
      UploadOutcome.success u s fn) ∧
    lookupBlob (uploadFile st req now expiryMs fresh uuid totp encF true msg).1.blobs
      (basenameStr uuid) = some (encF f.buffer) := by
  have hrun : uploadFile st req now expiryMs fresh uuid totp encF true msg =
      (addCaptcha { st with
          captchas := deleteCaptchaRows st.captchas req.captchaKey,
          blobs := st.blobs ++ [(basenameStr uuid, encF f.buffer)] } fresh,
        UploadOutcome.errorRender ("Error processing file upload: " ++ msg) fresh.key) := by
    unfold uploadFile
    rw [if_neg (by simp [hkey, hans])]
    simp only [hstored, hnotexp, hverify, hfile, hmime, Bool.not_true, Bool.false_eq_true,
      if_false, if_true, Bool.true_eq_false]
  rw [hrun]
  constructor
  · intro u s fn hcontra
    exact UploadOutcome.noConfusion hcontra
  · simp only [addCaptcha]
    exact lookupBlob_append_self st.blobs (basenameStr uuid) (encF f.buffer) hnoblob

/-- C2 witness: the amended behaviour at a concrete failing insert. -/
theorem upload_insert_failure_keeps_blob_witness :
    (cexReq.captchaKey ≠ "" ∧ cexReq.captchaAnswer ≠ "" ∧
      findByKey cexState.captchas cexReq.captchaKey = some cexStored ∧
      isExpired 0 cexStored.created_at 300000 = false ∧
      captchaVerify cexReq.captchaAnswer cexStored.text = true ∧
      cexReq.file = some cexFile ∧ allowedMime cexFile.mimetype = true ∧
      lookupBlob cexState.blobs (basenameStr "u1") = none) ∧
    ((∀ u s fn, (uploadFile cexState cexReq 0 300000 cexFresh "u1" "S"
        (fun b => b) true "db failure").2 ≠ UploadOutcome.success u s fn) ∧
      lookupBlob (uploadFile cexState cexReq 0 300000 cexFresh "u1" "S"
          (fun b => b) true "db failure").1.blobs (basenameStr "u1") =
        some ((fun b => b) cexFile.buffer)) := by
  exact ⟨⟨by decide, by decide, by decide, by decide, by decide, by decide, by decide, by decide⟩,
    upload_insert_failure_keeps_blob cexState cexReq 0 300000 cexStored cexFresh "u1" "S"
      (fun b => b) "db failure" cexFile (by decide) (by decide) (by decide) (by decide)
      (by decide) (by decide) (by decide) (by decide)⟩

/-! ### C8 — unexpected failures are caught, but the message echoes detail -/

/-- C8 counterexample: the catch block renders
`'Error processing file upload: ' + error.message`, so the client-visible
response depends on, and echoes, the internal error text: two runs that
differ only in the internal error message produce different client
responses, contradicting the claim that the client receives a generic
message revealing no internal detail. -/
theorem upload_error_message_leaks_cex :
    (uploadFile cexState cexReq 0 300000 cexFresh "u1" "S" (fun b => b) true
        "ENOENT: no such file or directory, open /app/src/uploads/u1").2 ≠
      (uploadFile cexState cexReq 0 300000 cexFresh "u1" "S" (fun b => b) true
        "boom").2 := by
  decide

/-- C8 amended: an unexpected failure in the persist step is caught, a fresh
challenge is regenerated (inserted into the captcha table and its key
embedded in the response), and the client receives an error render rather
than an unhandled failure — but its message is the fixed prefix followed by
the internal error's message text, which is thereby revealed to the
client. -/
theorem upload_failure_caught_and_regenerated
    (st : SysState) (req : UploadReq) (now expiryMs : Int) (stored fresh : CaptchaRow)
    (uuid totp : String) (encF : List Nat → List Nat) (msg : String) (f : UploadedFile)
    (hkey : req.captchaKey ≠ "") (hans : req.captchaAnswer ≠ "")
    (hstored : findByKey st.captchas req.captchaKey = some stored)
    (hnotexp : isExpired now stored.created_at expiryMs = false)
    (hverify : captchaVerify req.captchaAnswer stored.text = true)
    (hfile : req.file = some f) (hmime : allowedMime f.mimetype = true) :
    (uploadFile st req now expiryMs fresh uuid totp encF true msg).2 =
      UploadOutcome.errorRender ("Error processing file upload: " ++ msg) fresh.key ∧
    fresh ∈ (uploadFile st req now expiryMs fresh uuid totp encF true msg).1.captchas := by
  have hrun : uploadFile st req now expiryMs fresh uuid totp encF true msg =
      (addCaptcha { st with
          captchas := deleteCaptchaRows st.captchas req.captchaKey,
          blobs := st.blobs ++ [(basenameStr uuid, encF f.buffer)] } fresh,
        UploadOutcome.errorRender ("Error processing file upload: " ++ msg) fresh.key) := by
    unfold uploadFile
    rw [if_neg (by simp [hkey, hans])]
    simp only [hstored, hnotexp, hverify, hfile, hmime, Bool.not_true, Bool.false_eq_true,
      if_false, if_true, Bool.true_eq_false]
  rw [hrun]
  exact ⟨rfl, by simp [addCaptcha]⟩

/-- C8 witness: the amended behaviour at a concrete failing step. -/
theorem upload_failure_caught_witness :
    (cexReq.captchaKey ≠ "" ∧ cexReq.captchaAnswer ≠ "" ∧
      findByKey cexState.captchas cexReq.captchaKey = some cexStored ∧
      isExpired 0 cexStored.created_at 300000 = false ∧
      captchaVerify cexReq.captchaAnswer cexStored.text = true ∧
      cexReq.file = some cexFile ∧ allowedMime cexFile.mimetype = true) ∧
    ((uploadFile cexState cexReq 0 300000 cexFresh "u1" "S" (fun b => b) true "boom").2 =
        UploadOutcome.errorRender ("Error processing file upload: " ++ "boom") cexFresh.key ∧
      cexFresh ∈ (uploadFile cexState cexReq 0 300000 cexFresh "u1" "S"
          (fun b => b) true "boom").1.captchas) := by
  exact ⟨⟨by decide, by decide, by decide, by decide, by decide, by decide, by decide⟩,
    upload_failure_caught_and_regenerated cexState cexReq 0 300000 cexStored cexFresh "u1" "S"
      (fun b => b) "boom" cexFile (by decide) (by decide) (by decide) (by decide) (by decide)
      (by decide) (by decide)⟩

/-! ### Lemmas for the identifier format (C10) -/

theorem nibble_hex : ∀ n < 16, isHexDigitI (nibbleToHexChar n) = true ∧ nibbleToHexChar n ≠ '-' := by
  decide

theorem mem_byteToHex (c : Char) (b : Nat) (h : c ∈ byteToHex b) :
    isHexDigitI c = true ∧ c ≠ '-' := by
  simp only [byteToHex, List.mem_cons, List.mem_singleton, List.not_mem_nil, or_false] at h
  rcases h with h | h <;> subst h
  · exact nibble_hex _ (Nat.mod_lt _ (by decide))
  · exact nibble_hex _ (Nat.mod_lt _ (by decide))

theorem mem_hexBytes (c : Char) (bs : List Nat) (h : c ∈ hexBytes bs) :
    isHexDigitI c = true ∧ c ≠ '-' := by
  unfold hexBytes at h
  rw [List.mem_flatten] at h
  obtain ⟨l, hl, hc⟩ := h
  rw [List.mem_map] at hl
  obtain ⟨b, _, rfl⟩ := hl
  exact mem_byteToHex c b hc

theorem hexBytes_no_dash (bs : List Nat) : ∀ c ∈ hexBytes bs, c ≠ '-' :=
  fun c hc => (mem_hexBytes c bs hc).2

theorem hexBytes_all_hex (bs : List Nat) : (hexBytes bs).all isHexDigitI = true := by
  rw [List.all_eq_true]
  exact fun c hc => (mem_hexBytes c bs hc).1

theorem length_hexBytes (bs : List Nat) : (hexBytes bs).length = 2 * bs.length := by
  induction bs with
  | nil => rfl
  | cons b t ih =>
    simp only [hexBytes, List.map_cons, List.flatten_cons, List.length_append] at ih ⊢
    simp [byteToHex, ih]
    omega

theorem splitDash_no_dash : ∀ g : List Char, (∀ c ∈ g, c ≠ '-') → splitDash g = [g] := by
  intro g
  induction g with
  | nil => intro _; rfl
  | cons c cs ih =>
    intro h
    have hc : c ≠ '-' := h c (List.mem_cons_self _ _)
    simp only [splitDash, if_neg hc]
    rw [ih (fun x hx => h x (List.mem_cons_of_mem _ hx))]

theorem splitDash_append : ∀ g rest : List Char, (∀ c ∈ g, c ≠ '-') →
    splitDash (g ++ '-' :: rest) = g :: splitDash rest := by
  intro g
  induction g with
  | nil => intro rest _; simp [splitDash]
  | cons c cs ih =>
    intro rest h
    have hc : c ≠ '-' := h c (List.mem_cons_self _ _)
    simp only [List.cons_append, splitDash, if_neg hc, List.append_eq]
    rw [ih rest (fun x hx => h x (List.mem_cons_of_mem _ hx))]

/-! ### C10 — issued identifiers always pass the download format check -/

/-- C10: every identifier the upload path can issue is accepted by the
download path's format check: for all sixteen random bytes drawn by
`randomUUID`, the resulting identifier string matches the case-insensitive
8-4-4-4-12 hex regex applied at the start of `downloadFile`, so a genuinely
issued identifier is never rejected with the invalid-format error. -/
theorem issued_uuid_matches_regex (bs : List Nat) (h : bs.length = 16) :
    matchesUuidRegex (randomUUIDOf bs) = true := by
  have hv : (setVersionVariant bs).length = 16 := by
    rw [setVersionVariant, List.length_mapIdx, h]
  unfold matchesUuidRegex randomUUIDOf
  have htl : (String.mk (uuidChars bs)).toList = uuidChars bs := rfl
  rw [htl]
  unfold uuidChars
  rw [splitDash_append _ _ (hexBytes_no_dash _), splitDash_append _ _ (hexBytes_no_dash _),
    splitDash_append _ _ (hexBytes_no_dash _), splitDash_append _ _ (hexBytes_no_dash _),
    splitDash_no_dash _ (hexBytes_no_dash _)]
  simp only [groupOk, length_hexBytes, List.length_take, List.length_drop, hv,
    hexBytes_all_hex, Bool.and_true]
  decide

/-- C10 witness: a concrete byte draw yields an accepted identifier. -/
theorem issued_uuid_matches_regex_witness :
    (List.replicate 16 0).length = 16 ∧
    matchesUuidRegex (randomUUIDOf (List.replicate 16 0)) = true :=
  ⟨by decide, issued_uuid_matches_regex (List.replicate 16 0) (by decide)⟩

/-! ### Lemmas for the secret codec (C1) -/

theorem length_xorBytes (a b : List Nat) : (xorBytes a b).length = min a.length b.length := by
  simp [xorBytes, List.length_zipWith]

theorem xorBytes_cancel : ∀ a b : List Nat, a.length = b.length →
    xorBytes (xorBytes a b) b = a := by
  intro a
  induction a with
  | nil => intro b _; rfl
  | cons x xs ih =>
    intro b h
    cases b with
    | nil => simp at h
    | cons y ys =>
      simp only [xorBytes, List.zipWith_cons_cons] at *
      rw [Nat.xor_cancel_right]
      rw [ih ys (by simpa using h)]

theorem padAmount_bounds (n : Nat) : 1 ≤ BLOCK - n % BLOCK ∧ BLOCK - n % BLOCK ≤ BLOCK := by
  have := Nat.mod_lt n (show 0 < BLOCK by decide)
  unfold BLOCK at *
  omega

theorem length_pkcs7pad (bs : List Nat) :
    (pkcs7pad bs).length = bs.length + (BLOCK - bs.length % BLOCK) := by
  simp [pkcs7pad]

theorem block_dvd_length_pkcs7pad (bs : List Nat) : BLOCK ∣ (pkcs7pad bs).length := by
  rw [length_pkcs7pad]
  unfold BLOCK
  omega

theorem pkcs7unpad_pkcs7pad (bs : List Nat) : pkcs7unpad (pkcs7pad bs) = some bs := by
  obtain ⟨hk1, hk16⟩ := padAmount_bounds bs.length
  set k := BLOCK - bs.length % BLOCK with hkdef
  have hpad : pkcs7pad bs = bs ++ List.replicate k k := rfl
  have hlen : (bs ++ List.replicate k k).length = bs.length + k := by
    simp
  have hsub : (bs ++ List.replicate k k).length - k = bs.length := by
    omega
  unfold pkcs7unpad
  rw [hpad, List.getLast?_append, List.getLast?_replicate, if_neg (by omega)]
  have hor : (some k).or bs.getLast? = some k := rfl
  rw [hor]
  have hdrop : (bs ++ List.replicate k k).drop ((bs ++ List.replicate k k).length - k)
      = List.replicate k k := by
    rw [hsub]
    exact List.drop_left _ _
  have hcond : (decide (1 ≤ k) && decide (k ≤ BLOCK) &&
      decide (k ≤ (bs ++ List.replicate k k).length) &&
      ((bs ++ List.replicate k k).drop ((bs ++ List.replicate k k).length - k)).all
        (fun x => x == k)) = true := by
    rw [hdrop]
    simp only [Bool.and_eq_true, decide_eq_true_eq, List.all_eq_true, List.mem_replicate]
    refine ⟨⟨⟨hk1, hk16⟩, by omega⟩, ?_⟩
    intro x hx
    simp [hx.2]
  show (if (decide (1 ≤ k) && decide (k ≤ BLOCK) &&
      decide (k ≤ (bs ++ List.replicate k k).length) &&
      ((bs ++ List.replicate k k).drop ((bs ++ List.replicate k k).length - k)).all
        (fun x => x == k)) = true then
      some ((bs ++ List.replicate k k).take ((bs ++ List.replicate k k).length - k))
    else none) = some bs
  rw [hcond]
  simp only [if_pos rfl]
  rw [hsub]
  simp [List.take_left]

theorem chunksAux_blocks : ∀ (fuel : Nat) (l : List Nat), l.length ≤ fuel → BLOCK ∣ l.length →
    ∀ b ∈ chunksAux fuel l, b.length = BLOCK := by
  intro fuel
  induction fuel with
  | zero =>
    intro l _ _ b hb
    simp [chunksAux] at hb
  | succ f ih =>
    intro l hlen hdvd b hb
    cases l with
    | nil => simp [chunksAux] at hb
    | cons c cs =>
      simp only [chunksAux] at hb
      rcases List.mem_cons.mp hb with h1 | h2
      · subst h1
        have hge : BLOCK ≤ (c :: cs).length := Nat.le_of_dvd (by simp) hdvd
        rw [List.length_take]
        omega
      · have hd : BLOCK ∣ ((c :: cs).drop BLOCK).length := by
          rw [List.length_drop]
          exact Nat.dvd_sub' hdvd dvd_rfl
        refine ih _ ?_ hd b h2
        rw [List.length_drop]
        simp only [List.length_cons] at hlen ⊢
        unfold BLOCK
        omega

/-- Every block of a byte list whose length is a multiple of the block size
has exactly the block size. -/
theorem chunks_blocks (l : List Nat) (hdvd : BLOCK ∣ l.length) :
    ∀ b ∈ chunks l, b.length = BLOCK :=
  chunksAux_blocks l.length l le_rfl hdvd

theorem chunksAux_flatten : ∀ (bs : List (List Nat)) (fuel : Nat),
    (∀ b ∈ bs, b.length = BLOCK) → bs.flatten.length ≤ fuel →
    chunksAux fuel bs.flatten = bs := by
  intro bs
  induction bs with
  | nil =>
    intro fuel _ _
    cases fuel <;> rfl
  | cons b t ih =>
    intro fuel hall hlen
    have hb : b.length = BLOCK := hall b (List.mem_cons_self _ _)
    cases fuel with
    | zero =>
      exfalso
      simp only [List.flatten_cons, List.length_append, Nat.le_zero] at hlen
      unfold BLOCK at hb
      omega
    | succ f =>
      cases b with
      | nil => simp [BLOCK] at hb
      | cons x xs =>
        show chunksAux (f + 1) ((x :: xs) ++ t.flatten) = (x :: xs) :: t
        rw [List.cons_append]
        simp only [chunksAux]
        rw [← List.cons_append, ← hb, List.take_left, List.drop_left]
        rw [ih f (fun q hq => hall q (List.mem_cons_of_mem _ hq))]
        simp only [List.flatten_cons, List.length_append] at hlen
        unfold BLOCK at hb
        omega

/-- Splitting the concatenation of full blocks recovers exactly the blocks. -/
theorem chunks_flatten (bs : List (List Nat)) (hall : ∀ b ∈ bs, b.length = BLOCK) :
    chunks bs.flatten = bs :=
  chunksAux_flatten bs bs.flatten.length hall le_rfl

theorem flatten_chunksAux : ∀ (fuel : Nat) (l : List Nat), l.length ≤ fuel →
    (chunksAux fuel l).flatten = l := by
  intro fuel
  induction fuel with
  | zero =>
    intro l h
    have : l = [] := List.length_eq_zero.mp (Nat.le_zero.mp h)
    subst this
    rfl
  | succ f ih =>
    intro l hlen
    cases l with
    | nil => rfl
    | cons c cs =>
      simp only [chunksAux, List.flatten_cons]
      rw [ih _ (by rw [List.length_drop]; simp only [List.length_cons] at hlen ⊢; unfold BLOCK; omega)]
      exact List.take_append_drop _ _

/-- Joining the blocks of a byte list gives back the byte list. -/
theorem flatten_chunks (l : List Nat) : (chunks l).flatten = l :=
  flatten_chunksAux l.length l le_rfl

theorem cbcEnc_blocks (E : List Nat → List Nat)
    (hElen : ∀ x, x.length = BLOCK → (E x).length = BLOCK) :
    ∀ (ps : List (List Nat)) (prev : List Nat),
      (∀ p ∈ ps, p.length = BLOCK) → prev.length = BLOCK →
      ∀ c ∈ cbcEnc E prev ps, c.length = BLOCK := by
  intro ps
  induction ps with
  | nil =>
    intro prev _ _ c hc
    simp [cbcEnc] at hc
  | cons p t ih =>
    intro prev hall hprev c hc
    have hp := hall p (List.mem_cons_self _ _)
    have hx : (xorBytes p prev).length = BLOCK := by
      rw [length_xorBytes, hp, hprev]
      simp
    simp only [cbcEnc] at hc
    rcases List.mem_cons.mp hc with h1 | h2
    · subst h1
      exact hElen _ hx
    · exact ih (E (xorBytes p prev)) (fun q hq => hall q (List.mem_cons_of_mem _ hq))
        (hElen _ hx) c h2

theorem cbc_roundtrip (E D : List Nat → List Nat)
    (hED : ∀ x, x.length = BLOCK → D (E x) = x)
    (hElen : ∀ x, x.length = BLOCK → (E x).length = BLOCK) :
    ∀ (ps : List (List Nat)) (prev : List Nat),
      (∀ p ∈ ps, p.length = BLOCK) → prev.length = BLOCK →
      cbcDec D prev (cbcEnc E prev ps) = ps := by
  intro ps
  induction ps with
  | nil => intro prev _ _; rfl
  | cons p t ih =>
    intro prev hall hprev
    have hp := hall p (List.mem_cons_self _ _)
    have hx : (xorBytes p prev).length = BLOCK := by
      rw [length_xorBytes, hp, hprev]
      simp
    simp only [cbcEnc, cbcDec]
    rw [hED _ hx]
    rw [xorBytes_cancel p prev (hp.trans hprev.symm)]
    rw [ih (E (xorBytes p prev)) (fun q hq => hall q (List.mem_cons_of_mem _ hq)) (hElen _ hx)]

/-! ### C1 — decrypting an encryption returns the original bytes -/

/-- C1: for every byte buffer, decrypting the result of encrypting it with
the same key returns the buffer: `encryptFile` draws a fresh nonce of the
configured length (16 bytes, an explicit argument here), returns
nonce followed by ciphertext, and `decryptFile` splits the first
`IV_LENGTH` bytes as the nonce and decrypts the remainder back to the
original plaintext.  The keyed AES block maps `E` (encryption) and `D`
(decryption) are abstract, assumed mutually inverse and block-size-preserving
on 16-byte blocks — the contract of the cipher library under a fixed key. -/
theorem encrypt_decrypt_roundtrip (E D : List Nat → List Nat)
    (hED : ∀ x, x.length = BLOCK → D (E x) = x)
    (hElen : ∀ x, x.length = BLOCK → (E x).length = BLOCK)
    (iv : List Nat) (hiv : iv.length = BLOCK) (buffer : List Nat) :
    decryptFile D (encryptFile E iv buffer) = some buffer := by
  have hpadall : ∀ b ∈ chunks (pkcs7pad buffer), b.length = BLOCK :=
    chunks_blocks _ (block_dvd_length_pkcs7pad buffer)
  have hencall : ∀ c ∈ cbcEnc E iv (chunks (pkcs7pad buffer)), c.length = BLOCK :=
    cbcEnc_blocks E hElen _ iv hpadall hiv
  unfold encryptFile decryptFile
  rw [show (iv ++ (cbcEnc E iv (chunks (pkcs7pad buffer))).flatten).take BLOCK = iv from by
      rw [← hiv]; exact List.take_left _ _]
  rw [show (iv ++ (cbcEnc E iv (chunks (pkcs7pad buffer))).flatten).drop BLOCK
      = (cbcEnc E iv (chunks (pkcs7pad buffer))).flatten from by
      rw [← hiv]; exact List.drop_left _ _]
  rw [chunks_flatten _ hencall]
  rw [cbc_roundtrip E D hED hElen _ iv hpadall hiv]
  rw [flatten_chunks]
  exact pkcs7unpad_pkcs7pad buffer

/-- C1 witness: the round trip at the identity block map (a legitimate
instance of the abstract cipher contract) on a concrete buffer and nonce. -/
theorem encrypt_decrypt_roundtrip_witness :
    (∀ x : List Nat, x.length = BLOCK → id (id x) = x) ∧
    (∀ x : List Nat, x.length = BLOCK → (id x).length = BLOCK) ∧
    (List.replicate 16 0).length = BLOCK ∧
    decryptFile id (encryptFile id (List.replicate 16 0) [1, 2, 3]) = some [1, 2, 3] :=
  ⟨fun _ _ => rfl, fun _ hx => hx, by decide,
    encrypt_decrypt_roundtrip id id (fun _ _ => rfl) (fun _ hx => hx)
      (List.replicate 16 0) (by decide) [1, 2, 3]⟩

/-- C4 witness: a plain identifier resolves to a path directly inside the
uploads directory. -/
theorem storage_path_inside_root_witness :
    (basenameStr "abc" ≠ "" ∧ basenameStr "abc" ≠ "." ∧ basenameStr "abc" ≠ "..") ∧
    (resolvedStoragePath ["app", "uploads"] "abc" = ["app", "uploads"] ++ [basenameStr "abc"] ∧
      '/' ∉ (basenameStr "abc").toList) := by
  exact ⟨⟨by decide, by decide, by decide⟩,
    storage_path_inside_root ["app", "uploads"] "abc" (by decide) (by decide) (by decide)⟩

end SecureFiles
